import Mathlib

/-!
# Verification of the `fetch-telegram-trades` ingestion pipeline

Shallow embedding of `supabase/functions/fetch-telegram-trades/index.ts`
(the message-to-trade parser, the deduplication/persistence gate, and the
sync orchestrator) together with the storage behaviour fixed by the SQL
migrations (unique index on `telegram_message_id`, insert-or-ignore).

Modelling conventions:
* Strings are `List Char` (Unicode scalar values, matching JS string code
  points for all characters appearing in the messages, none of which are
  outside the BMP surrogate range issues).
* JS `number` values produced by `parseFloat` on the short decimal literals
  captured by the patterns are modelled as exact rationals `ℚ`; every
  literal appearing in the claims is exactly representable as printed.
* Each regular expression used by the source is compiled by hand into a
  matcher `List Char → Option (List Char)` returning the first capture
  group of the leftmost match, following the JS backtracking semantics
  (`text.match(re)` scans start positions left to right; greedy `X+`/`X{3,4}`
  try longest first; lazy `.*?` tries shortest first; `.` does not match
  line terminators).  The character class `[A-Z]` under the `i` flag is
  modelled as the ASCII letters (the exotic non-ASCII case foldings such as
  the Kelvin sign never occur in the message alphabet).
* Case-insensitive (`i` flag) literal characters are compared after folding
  ASCII upper case and the Swedish letters Å, Ä, Ö to lower case — the only
  cased characters occurring in the source's patterns.
-/

/-! ## Character classes and case folding -/

/-- ASCII letter, the model of the class `[A-Z]` under the `i` flag. -/
def isAsciiAlpha (c : Char) : Bool :=
  ('A' ≤ c && c ≤ 'Z') || ('a' ≤ c && c ≤ 'z')

/-- ASCII digit, the class `[0-9]`. -/
def isDigitChar (c : Char) : Bool :=
  '0' ≤ c && c ≤ '9'

/-- The class `[A-Z0-9]` under the `i` flag. -/
def isAlnumCI (c : Char) : Bool :=
  isAsciiAlpha c || isDigitChar c

/-- JS `\s`: whitespace and line terminators (the ones that can occur in the
messages; the exotic Unicode space code points are omitted as they never
appear in the source alphabet). -/
def isJsWhitespace (c : Char) : Bool :=
  c = ' ' || c = '\t' || c = '\n' || c = '\r' ||
  c = '\x0b' || c = '\x0c' || c = ' '

/-- JS regex line terminators, which `.` does not match. -/
def isLineTerminator (c : Char) : Bool :=
  c = '\n' || c = '\r' || c = ' ' || c = ' '

/-- Case folding for the `i` flag, restricted to the characters that occur in
the source's patterns: ASCII letters and Å/Ä/Ö. -/
def foldCaseChar (c : Char) : Char :=
  if 'A' ≤ c && c ≤ 'Z' then Char.ofNat (c.toNat + 32)
  else if c = 'Å' then 'å'
  else if c = 'Ä' then 'ä'
  else if c = 'Ö' then 'ö'
  else c

/-- Case-insensitive character comparison (`i` flag). -/
def charEqCI (a b : Char) : Bool :=
  foldCaseChar a == foldCaseChar b

/-- Strip a literal pattern prefix case-insensitively; returns the rest. -/
def stripPrefixCI : List Char → List Char → Option (List Char)
  | [], s => some s
  | _ :: _, [] => none
  | a :: as, b :: bs => if charEqCI a b then stripPrefixCI as bs else none

/-! ## Generic leftmost-match scan

`text.match(re)` tries the pattern at every start position from the left and
returns the first success; `scanOpt m text` does the same for a hand-compiled
matcher `m` applied to each suffix (including the empty suffix at the end of
the string, where all the matchers below fail). -/

def scanOpt {α : Type} (m : List Char → Option α) : List Char → Option α
  | [] => m []
  | c :: rest =>
    match m (c :: rest) with
    | some r => some r
    | none => scanOpt m rest

/-! ## Numeric captures and `parseFloat` -/

/-- Matcher for `([0-9]+\.?[0-9]*)` at the current position: a nonempty digit
run, then an optional dot, then a (possibly empty) digit run.  Greedy and
final in every pattern that uses it, so maximal runs are exact. -/
def matchUnsignedNum (s : List Char) : Option (List Char) :=
  let d1 := s.takeWhile isDigitChar
  if d1.isEmpty then none
  else
    match s.drop d1.length with
    | '.' :: rest => some (d1 ++ '.' :: rest.takeWhile isDigitChar)
    | _ => some d1

/-- Matcher for `([+-]?[0-9]+\.?[0-9]*)` at the current position.  If a sign
is present but not followed by digits the whole alternative fails (giving the
sign back cannot help, since a sign character is not a digit). -/
def matchSignedNum (s : List Char) : Option (List Char) :=
  match s with
  | c :: rest =>
    if c = '+' || c = '-' then
      match matchUnsignedNum rest with
      | some n => some (c :: n)
      | none => none
    else matchUnsignedNum s
  | [] => none

/-- Numeric value of a digit character. -/
def digitVal (c : Char) : Nat := c.toNat - 48

/-- Value of a digit run, most significant first. -/
def digitsToNat (l : List Char) : Nat :=
  l.foldl (fun a c => a * 10 + digitVal c) 0

/-- Model of `parseFloat` on an unsigned capture of shape `digits['.' digits]`,
modelled exactly as a rational. -/
def parseUnsignedDec (l : List Char) : ℚ :=
  let ip := l.takeWhile isDigitChar
  let rest := l.drop ip.length
  let fp := match rest with
    | '.' :: f => f
    | _ => []
  (digitsToNat ip : ℚ) + (digitsToNat fp : ℚ) / ((10 : ℚ) ^ fp.length)

/-- Model of `parseFloat` on a capture of `[+-]?[0-9]+\.?[0-9]*`. -/
def parseDecimal (l : List Char) : ℚ :=
  match l with
  | '-' :: r => - parseUnsignedDec r
  | '+' :: r => parseUnsignedDec r
  | r => parseUnsignedDec r

/-! ## `Date.toISOString`

`new Date(sec * 1000).toISOString()` for a non-negative whole number of
seconds; the milliseconds part is always `000`.  The civil date is computed
with the standard days-to-civil conversion (valid for all dates from 1970
through year 9999, after which `toISOString` would switch to the expanded
year format — never reached by the inputs considered here). -/

/-- Decimal digit character. -/
def digitChar (d : Nat) : Char := Char.ofNat (48 + d % 10)

def pad2 (n : Nat) : List Char := [digitChar (n / 10), digitChar n]

def pad4 (n : Nat) : List Char :=
  [digitChar (n / 1000), digitChar (n / 100), digitChar (n / 10), digitChar n]

/-- Gregorian civil date `(year, month, day)` from days since 1970-01-01. -/
def civilFromDays (z0 : Nat) : Nat × Nat × Nat :=
  let z := z0 + 719468
  let era := z / 146097
  let doe := z % 146097
  let yoe := (doe - doe / 1460 + doe / 36524 - doe / 146096) / 365
  let y := yoe + era * 400
  let doy := doe - (365 * yoe + yoe / 4 - yoe / 100)
  let mp := (5 * doy + 2) / 153
  let d := doy - (153 * mp + 2) / 5 + 1
  let m := if mp < 10 then mp + 3 else mp - 9
  (if m ≤ 2 then y + 1 else y, m, d)

/-- Rendering of `new Date(sec * 1000).toISOString()` as a character list. -/
def epochToIso (sec : Nat) : List Char :=
  let days := sec / 86400
  let rem := sec % 86400
  let ymd := civilFromDays days
  pad4 ymd.1 ++ '-' :: pad2 ymd.2.1 ++ '-' :: pad2 ymd.2.2 ++
  'T' :: pad2 (rem / 3600) ++ ':' :: pad2 (rem % 3600 / 60) ++
  ':' :: pad2 (rem % 60) ++ '.' :: '0' :: '0' :: '0' :: 'Z' :: []


/-! ## Data model

`TelegramMessage` is the update's `message` object (the TS interface declares
`message_id`, `text?`, `date`; the chat filter additionally reads the
`chat.id` present on the runtime object).  `Trade` is the parser output /
storage unit of the `trades` table. -/

structure Chat where
  id : Int
deriving DecidableEq

structure TelegramMessage where
  message_id : Int
  text : Option (List Char)
  /-- Field `date` is a Unix timestamp in seconds (non-negative for every real
  Telegram message). -/
  date : Nat
  chat : Option Chat
deriving DecidableEq

structure Trade where
  symbol : List Char
  action : String
  price : ℚ
  quantity : Option ℚ
  profit_loss : Option ℚ
  timestamp : List Char
  telegram_message_id : Int
  raw_message : List Char
deriving DecidableEq

/-- Substring occurrence at some position. -/
def containsList (needle : List Char) : List Char → Bool
  | [] => needle.isEmpty
  | s@(_ :: rest) => needle.isPrefixOf s || containsList needle rest

/-- Model of `text.includes(needle)` — case-sensitive substring test. -/
def includes (needle : String) (text : List Char) : Bool :=
  containsList needle.toList text

/-! ## Relevance filter (`isCloseMessage`) -/

def isCloseMessage (text : List Char) : Bool :=
  includes "POSITION STÄNGD" text ||
  includes "POSITION CLOSED" text ||
  includes "STÄNGD POSITION" text ||
  includes "AVSLUTAD POSITION" text ||
  includes "PnL:" text ||
  includes "Vinst:" text ||
  includes "Förlust:" text ||
  includes "vinst" text ||
  includes "förlust" text ||
  includes "resultat" text ||
  includes "profit" text ||
  includes "loss" text ||
  includes "📈" text ||
  includes "📉" text

/-! ## Symbol extraction

The five patterns of `symbolPatterns`, in order:
`/Symbol:\s*([A-Z0-9]+-[A-Z]+)/i`, `/Valuta:\s*([A-Z0-9]+-[A-Z]+)/i`,
`/Par:\s*([A-Z0-9]+-[A-Z]+)/i`, `/💰\s*([A-Z0-9]+-[A-Z]+)/i`,
`/([A-Z]{3,4}-[A-Z]{3,4})/i`. -/

/-- Matcher for `\s*([A-Z0-9]+-[A-Z]+)` after a matched label.  Greedy `\s*` and the two
`+` runs are exact: neither class overlaps the character that must follow
it, so backtracking cannot recover from a maximal-run failure. -/
def matchSymbolTail (s : List Char) : Option (List Char) :=
  let s1 := s.dropWhile isJsWhitespace
  let g1 := s1.takeWhile isAlnumCI
  if g1.isEmpty then none
  else
    match s1.drop g1.length with
    | '-' :: s2 =>
      let g2 := s2.takeWhile isAsciiAlpha
      if g2.isEmpty then none else some (g1 ++ '-' :: g2)
    | _ => none

/-- A labelled symbol pattern, applied at one start position. -/
def matchLabeledSymbolAt (label : List Char) (s : List Char) : Option (List Char) :=
  match stripPrefixCI label s with
  | some rest => matchSymbolTail rest
  | none => none

/-- Matcher for `([A-Z]{3,4}-[A-Z]{3,4})` at one start position: the first bounded
repetition greedily tries length 4, then 3; each attempt must be followed by
`-`; the second repetition is final, so it takes 4 letters when available,
else 3. -/
def matchDirectSymbolAt (s : List Char) : Option (List Char) :=
  let try1 := fun (len1 : Nat) =>
    let g1 := s.take len1
    if g1.length = len1 && g1.all isAsciiAlpha then
      match s.drop len1 with
      | '-' :: rest =>
        let r := rest.takeWhile isAsciiAlpha
        if r.length ≥ 4 then some (g1 ++ '-' :: r.take 4)
        else if r.length ≥ 3 then some (g1 ++ '-' :: r.take 3)
        else none
      | _ => none
    else none
  match try1 4 with
  | some c => some c
  | none => try1 3

/-- The `for (const pattern of symbolPatterns)` loop: first pattern that
matches anywhere in the text wins; `undefined` if none does. -/
def extractSymbol (text : List Char) : Option (List Char) :=
  match scanOpt (matchLabeledSymbolAt "Symbol:".toList) text with
  | some s => some s
  | none =>
  match scanOpt (matchLabeledSymbolAt "Valuta:".toList) text with
  | some s => some s
  | none =>
  match scanOpt (matchLabeledSymbolAt "Par:".toList) text with
  | some s => some s
  | none =>
  match scanOpt (matchLabeledSymbolAt "💰".toList) text with
  | some s => some s
  | none => scanOpt matchDirectSymbolAt text

/-! ## Price extraction

`/Utgångspris:\s*\$([0-9]+\.?[0-9]*)/i` and the (unused)
`/Ingångspris:\s*\$([0-9]+\.?[0-9]*)/i`. -/

def matchPriceAt (label : List Char) (s : List Char) : Option (List Char) :=
  match stripPrefixCI label s with
  | some rest =>
    match rest.dropWhile isJsWhitespace with
    | '$' :: r2 => matchUnsignedNum r2
    | _ => none
  | none => none

def extractExitPrice (text : List Char) : Option (List Char) :=
  scanOpt (matchPriceAt "Utgångspris:".toList) text

def extractEntryPrice (text : List Char) : Option (List Char) :=
  scanOpt (matchPriceAt "Ingångspris:".toList) text

/-! ## P/L extraction

The six patterns of `pnlPatterns`, in order:
`/PnL:\s*\$([+-]?[0-9]+\.?[0-9]*)/i` (dollar sign required),
`/Vinst:\s*\$?(...)/i`, `/Förlust:\s*\$?(...)/i`, `/Resultat:\s*\$?(...)/i`
(dollar sign optional), `/📈.*?\$(...)/i`, `/📉.*?\$(...)/i`. -/

inductive PnlPat
  | pnl | vinst | forlust | resultat | up | down
deriving DecidableEq

def pnlPatterns : List PnlPat :=
  [.pnl, .vinst, .forlust, .resultat, .up, .down]

/-- Matcher for `label\s*\$?num` (or with a mandatory dollar sign) at one position.
If a dollar sign is present but no number follows it, backtracking into the
optional `\$?` cannot help: a `$` is neither a sign nor a digit. -/
def matchMoneyAt (label : List Char) (dollarOptional : Bool) (s : List Char) :
    Option (List Char) :=
  match stripPrefixCI label s with
  | some rest =>
    let r1 := rest.dropWhile isJsWhitespace
    match r1 with
    | '$' :: r2 => matchSignedNum r2
    | _ => if dollarOptional then matchSignedNum r1 else none
  | none => none

/-- Matcher for `.*?\$([+-]?[0-9]+\.?[0-9]*)` after the emoji: lazy `.*?` tries the rest
of the pattern before consuming one more (non-line-terminator) character; a
`$` not followed by a number is consumed by `.` and scanning continues. -/
def dotLazyDollarNum : List Char → Option (List Char)
  | [] => none
  | '$' :: rest =>
    (match matchSignedNum rest with
     | some n => some n
     | none => dotLazyDollarNum rest)
  | c :: rest =>
    if isLineTerminator c then none else dotLazyDollarNum rest

def matchEmojiPnlAt (emoji : Char) (s : List Char) : Option (List Char) :=
  match s with
  | c :: rest => if c = emoji then dotLazyDollarNum rest else none
  | [] => none

/-- Result of `text.match(pattern)` (first capture) for one entry of `pnlPatterns`. -/
def pnlMatch : PnlPat → List Char → Option (List Char)
  | .pnl, t => scanOpt (matchMoneyAt "PnL:".toList false) t
  | .vinst, t => scanOpt (matchMoneyAt "Vinst:".toList true) t
  | .forlust, t => scanOpt (matchMoneyAt "Förlust:".toList true) t
  | .resultat, t => scanOpt (matchMoneyAt "Resultat:".toList true) t
  | .up, t => scanOpt (matchEmojiPnlAt '📈') t
  | .down, t => scanOpt (matchEmojiPnlAt '📉') t

/-- Test `pattern.source.includes('Förlust')`: true exactly for the third entry. -/
def sourceHasForlust : PnlPat → Bool
  | .forlust => true
  | _ => false

/-- The `for (const pattern of pnlPatterns)` loop: first match wins; if the
matched pattern was the loss pattern and the value is positive, the value is
negated. -/
def extractPnlGo : List PnlPat → List Char → Option ℚ
  | [], _ => none
  | p :: ps, t =>
    match pnlMatch p t with
    | some cap =>
      let value := parseDecimal cap
      some (if sourceHasForlust p && decide (value > 0) then -value else value)
    | none => extractPnlGo ps t

def extractPnl (t : List Char) : Option ℚ :=
  extractPnlGo pnlPatterns t

/-! ## The parser `parseTradingMessage` -/

def parseTradingMessage (message : TelegramMessage) : Option Trade :=
  match message.text with
  | none => none
  | some text =>
    if !isCloseMessage text then
      -- skip opening trade messages and status updates
      none
    else
      -- `let symbol = ''` mutated by the pattern loop, then `if (!symbol)`
      let symbol := (extractSymbol text).getD []
      if symbol.isEmpty then none
      else
        let action : String :=
          if includes "VINST" text || includes "PROFIT" text then "CLOSE_WIN"
          else if includes "FÖRLUST" text || includes "LOSS" text then "CLOSE_LOSS"
          else "CLOSE"
        match extractExitPrice text with
        | none => none
        | some priceCap =>
          let price := parseDecimal priceCap
          -- `let quantity: number | undefined;` — declared, never assigned
          let quantity : Option ℚ := none
          -- `const entryPriceMatch = ...` — computed, never used
          let _entryPriceMatch := extractEntryPrice text
          let profit_loss := extractPnl text
          some {
            symbol := symbol
            action := action
            price := price
            quantity := quantity
            profit_loss := profit_loss
            timestamp := epochToIso message.date
            telegram_message_id := message.message_id
            raw_message := text
          }

def msgC1 : TelegramMessage :=
  { message_id := 7
    text := some ("📉 POSITION STÄNGD Symbol: BTC-USDT Utgångspris: $0.673000 PnL: $-0.0117".toList)
    date := 1700000000
    chat := none }


def msgC6 : TelegramMessage :=
  { message_id := 8
    text := some ("POSITION STÄNGD Symbol: BTC-USDT Utgångspris: $1.0 Förlust: $120".toList)
    date := 1700000000
    chat := none }

def msgC7 : TelegramMessage :=
  { message_id := 9
    text := some ("📉 POSITION STÄNGD Symbol: btc-usdt Utgångspris: $1.0".toList)
    date := 1700000000
    chat := none }


/-! ## Storage model

A row of the `trades` table as far as the sync function reads or writes it:
the trade fields plus the `user_id` column (nullable, backfilled by the
orphan-adoption pass).  User ids are opaque; we model them as naturals. -/

structure StoredTrade where
  trade : Trade
  user_id : Option Nat
deriving DecidableEq

/-! ## Orphan-record adoption (lines 179–197)

`select id from trades where user_id is null`, and if any rows came back,
`update trades set user_id = <caller> where user_id is null`.  An error from
the update is only logged, never thrown. -/

def adoptOrphans (uid : Nat) (rows : List StoredTrade) : List StoredTrade :=
  let orphanedTrades := rows.filter (fun r => r.user_id = none)
  if orphanedTrades.length > 0 then
    rows.map (fun r => if r.user_id = none then { r with user_id := some uid } else r)
  else rows

/-! ## Mode and cursor selection (lines 204–277) -/

/-- Query `select count(*) from trades where user_id = <caller>`. -/
def existingTradesCount (uid : Nat) (rows : List StoredTrade) : Nat :=
  (rows.filter (fun r => r.user_id = some uid)).length

/-- Model of `const shouldFetchHistorical = !existingTradesCount || existingTradesCount === 0`
(for an actual count, falsy exactly at `0`). -/
def shouldFetchHistorical (uid : Nat) (rows : List StoredTrade) : Bool :=
  existingTradesCount uid rows == 0

/-- Maximum of a list of integers, `none` when empty. -/
def maxList : List Int → Option Int
  | [] => none
  | x :: xs =>
    match maxList xs with
    | none => some x
    | some m => some (max x m)

/-- Query `select telegram_message_id from trades where user_id = <caller>
order by telegram_message_id desc limit 1` — the caller's highest stored
message id. -/
def maxMsgId (uid : Nat) (rows : List StoredTrade) : Option Int :=
  maxList ((rows.filter (fun r => r.user_id = some uid)).map
    (fun r => r.trade.telegram_message_id))

/-- Model of `const offset = latestTrade?.telegram_message_id ?
latestTrade.telegram_message_id + 1 : undefined`.  Note the JS truthiness
test: a stored id equal to `0` is falsy and yields no offset. -/
def offsetFor (uid : Nat) (rows : List StoredTrade) : Option Int :=
  match maxMsgId uid rows with
  | some m => if m = 0 then none else some (m + 1)
  | none => none

/-! ## The per-update parse loops (lines 248–259 and 289–296)

Both loops keep an update only if it carries a `message` whose `chat.id`
renders equal to the configured `TELEGRAM_CHAT_ID` (the source compares the
decimal string forms, `chat.id.toString() === chatId`, which on integer ids
agrees with integer equality for a canonically-rendered configuration), then
run the parser and push a successful parse. -/

structure TelegramUpdate where
  message : Option TelegramMessage
deriving DecidableEq

def relevantUpdate (chatId : Int) (u : TelegramUpdate) : Bool :=
  match u.message with
  | some m =>
    match m.chat with
    | some c => c.id == chatId
    | none => false
  | none => false

def parseUpdates (chatId : Int) : List TelegramUpdate → List Trade
  | [] => []
  | u :: us =>
    match u.message with
    | some m =>
      match m.chat with
      | some c =>
        if c.id == chatId then
          match parseTradingMessage m with
          | some t => t :: parseUpdates chatId us
          | none => parseUpdates chatId us
        else parseUpdates chatId us
      | none => parseUpdates chatId us
    | none => parseUpdates chatId us

/-! ## Deduplication (lines 305–308)

`allTrades.filter((trade, index, self) => index === self.findIndex(t =>
t.telegram_message_id === trade.telegram_message_id))`. -/

/-- JS `Array.findIndex` with a running index. -/
def findIndexFrom {α : Type} (p : α → Bool) : List α → Nat → Option Nat
  | [], _ => none
  | a :: as, i => if p a then some i else findIndexFrom p as (i + 1)

def findIndexJs {α : Type} (p : α → Bool) (l : List α) : Option Nat :=
  findIndexFrom p l 0

/-- The filter callback applied to each element of `l` together with its
index: keep `trade` at `index` iff `index` is the first index in `self = l`
holding the same `telegram_message_id`. -/
def dedupKeep (l : List Trade) : List Trade → Nat → List Trade
  | [], _ => []
  | t :: ts, i =>
    if findIndexJs (fun u => u.telegram_message_id == t.telegram_message_id) l = some i
    then t :: dedupKeep l ts (i + 1)
    else dedupKeep l ts (i + 1)

def dedupTrades (l : List Trade) : List Trade :=
  dedupKeep l l 0

/-! ## Persistence (lines 313–331 plus the migrations)

`upsert(tradesWithUser, { onConflict: 'telegram_message_id',
ignoreDuplicates: true })` against the unique index
`idx_trades_telegram_message_id_unique`: each row is inserted with the
caller's `user_id` unless a row with the same `telegram_message_id` already
exists, in which case it is silently skipped. -/

def upsertIgnore (uid : Nat) (uniqueTrades : List Trade) (rows : List StoredTrade) :
    List StoredTrade :=
  uniqueTrades.foldl
    (fun acc t =>
      if acc.any (fun r => r.trade.telegram_message_id == t.telegram_message_id)
      then acc
      else acc ++ [{ trade := t, user_id := some uid }])
    rows


/-! ## The request handler (the `serve` callback)

Environment, request and upstream behaviour are gathered into explicit
inputs; the `trades` table is threaded through as explicit state.  Every
`throw` lands in the surrounding `catch`, which produces the
`{ success: false, error }` response with HTTP status 500; store mutations
performed before the throw persist (there is no rollback).

The crucial modelling point is line 299 of the source:

```
    if (!data.ok) {
      throw new Error(`Telegram API error: ${data.description}`);
    }
```

Both `const data = await response.json()` declarations are block-scoped
inside the `if (shouldFetchHistorical) { ... } else { ... }` branches, and no
binding named `data` exists in the enclosing scope, so evaluating `data.ok`
here raises a `ReferenceError` — caught by the `catch`, so every run that
reaches this line returns the 500 failure response, and the deduplication,
upsert and success response below it (lines 303–345) are unreachable. -/

inductive RunError
  /-- Error `throw new Error('Missing authorization header')` -/
  | missingAuthHeader
  /-- Error `throw new Error('Invalid authentication token')` -/
  | invalidToken
  /-- Error `throw new Error('Missing Telegram credentials')` -/
  | missingCreds
  /-- Error `throw new Error('Telegram API error: ...')` from a not-ok fetch -/
  | telegramApi
  /-- the `ReferenceError: data is not defined` raised at line 299 -/
  | referenceErrorData
deriving DecidableEq

inductive RespBody
  /-- Body `{ success: true, trades_found, message }`; the flag records which of
  the two success message texts ("historical import" vs "incremental") was
  chosen. -/
  | ok (tradesFound : Nat) (historicalRun : Bool)
  /-- Body `{ success: false, error }` -/
  | err (e : RunError)
deriving DecidableEq

structure SyncResponse where
  status : Nat
  /-- Value `none` for the empty CORS pre-flight response. -/
  body : Option RespBody
deriving DecidableEq

structure RunConfig where
  /-- Whether `TELEGRAM_BOT_TOKEN` is set and non-empty. -/
  botTokenPresent : Bool
  /-- Value of `TELEGRAM_CHAT_ID`, `none` when unset or empty. -/
  chatId : Option Int
deriving DecidableEq

/-- The upstream `getUpdates` endpoint: `ok` is the `data.ok` flag of its
JSON reply, `window o` the `data.result` list for the request with optional
`offset` parameter `o`. -/
structure Source where
  ok : Bool
  window : Option Int → List TelegramUpdate

structure RunInput where
  /-- Test `req.method === 'OPTIONS'` -/
  preflight : Bool
  /-- an `Authorization` header is present -/
  authHeaderPresent : Bool
  /-- the user returned by `supabase.auth.getUser(token)`, `none` on error -/
  user : Option Nat

def handleRequest (cfg : RunConfig) (src : Source) (inp : RunInput)
    (rows : List StoredTrade) : SyncResponse × List StoredTrade :=
  if inp.preflight then
    ({ status := 200, body := none }, rows)
  else if !inp.authHeaderPresent then
    ({ status := 500, body := some (.err .missingAuthHeader) }, rows)
  else
    match inp.user with
    | none => ({ status := 500, body := some (.err .invalidToken) }, rows)
    | some uid =>
      match cfg.chatId, cfg.botTokenPresent with
      | none, _ => ({ status := 500, body := some (.err .missingCreds) }, rows)
      | some _, false => ({ status := 500, body := some (.err .missingCreds) }, rows)
      | some chatId, true =>
        -- orphan adoption, then `deleteWebhook` (no effect on the model)
        let rows1 := adoptOrphans uid rows
        let shouldHist := shouldFetchHistorical uid rows1
        -- historical mode fetches without offset; incremental computes the
        -- cursor from the caller's highest stored message id
        let offset := if shouldHist then none else offsetFor uid rows1
        let fetched := src.window offset
        if !src.ok then
          ({ status := 500, body := some (.err .telegramApi) }, rows1)
        else
          let _allTrades := parseUpdates chatId fetched
          -- line 299: `if (!data.ok)` — `data` is not in scope here, so the
          -- run throws a ReferenceError; dedup/upsert/success never run
          ({ status := 500, body := some (.err .referenceErrorData) }, rows1)


/-! ## Small list lemmas -/

theorem mem_of_getElemOpt {α : Type} :
    ∀ (l : List α) (i : Nat) (a : α), l[i]? = some a → a ∈ l := by
  intro l
  induction l with
  | nil => intro i a h; simp at h
  | cons x xs ih =>
    intro i a h
    cases i with
    | zero => simp at h; simp [h]
    | succ n =>
      simp only [List.getElem?_cons_succ] at h
      exact List.mem_cons_of_mem x (ih n a h)

theorem findIndexFrom_shift {α : Type} (p : α → Bool) :
    ∀ (l : List α) (i : Nat),
      findIndexFrom p l (i + 1) = (findIndexFrom p l i).map (· + 1) := by
  intro l
  induction l with
  | nil => intro i; rfl
  | cons a as ih =>
    intro i
    simp only [findIndexFrom]
    by_cases h : p a
    · simp [h]
    · simp [h, ih]

theorem findIndexJs_cons {α : Type} (p : α → Bool) (a : α) (as : List α) :
    findIndexJs p (a :: as) =
      if p a then some 0 else (findIndexJs p as).map (· + 1) := by
  simp only [findIndexJs, findIndexFrom]
  by_cases h : p a
  · simp [h]
  · simpa [h] using findIndexFrom_shift p as 0

/-! ## C1: the end-to-end example -/

def c1Expected : Trade :=
  { symbol := "BTC-USDT".toList
    action := "CLOSE"
    price := 0.673
    quantity := none
    profit_loss := some (-0.0117)
    timestamp := "2023-11-14T22:13:20.000Z".toList
    telegram_message_id := 7
    raw_message := "📉 POSITION STÄNGD Symbol: BTC-USDT Utgångspris: $0.673000 PnL: $-0.0117".toList }

/-- C1 (counterexample): on the claimed input the parser's action is not
`CLOSE_LOSS` — the classifier's `text.includes` checks are case-sensitive
and none of `VINST`/`PROFIT`/`FÖRLUST`/`LOSS` occurs in the text. -/
theorem c1_counterexample :
    (parseTradingMessage msgC1).map Trade.action ≠ some "CLOSE_LOSS" := by
  decide

/-- Value `parseFloat('0.673000')` is 0.673. -/
theorem parseDecimal_exit673 : parseDecimal ("0.673000".toList) = 0.673 := by
  show ((0 : Nat) : ℚ) + ((673000 : Nat) : ℚ) / (10 : ℚ) ^ (6 : Nat) = 0.673
  norm_num

/-- Value `parseFloat('-0.0117')` is -0.0117. -/
theorem parseDecimal_neg0117 : parseDecimal ("-0.0117".toList) = -0.0117 := by
  show -(((0 : Nat) : ℚ) + ((117 : Nat) : ℚ) / (10 : ℚ) ^ (4 : Nat)) = -0.0117
  norm_num

/-- C1 (amended): for the RawMessage with the claimed text, externalId 7 and
epoch 1700000000, the parser returns symbol "BTC-USDT", action `CLOSE`
(not `CLOSE_LOSS`), price 0.673, profitLoss -0.0117, externalMessageId 7
and timestamp "2023-11-14T22:13:20.000Z". -/
theorem c1_end_to_end : parseTradingMessage msgC1 = some c1Expected := by
  have h0 : parseTradingMessage msgC1 = some
      { symbol := "BTC-USDT".toList
        action := "CLOSE"
        price := parseDecimal ("0.673000".toList)
        quantity := none
        profit_loss := some (parseDecimal ("-0.0117".toList))
        timestamp := "2023-11-14T22:13:20.000Z".toList
        telegram_message_id := 7
        raw_message :=
          "📉 POSITION STÄNGD Symbol: BTC-USDT Utgångspris: $0.673000 PnL: $-0.0117".toList } := by
    rfl
  rw [h0, parseDecimal_exit673, parseDecimal_neg0117]
  rfl

/-! ## C6: P/L sign normalization -/

/-- Value `parseFloat('120')` is 120. -/
theorem parseDecimal_c120 : parseDecimal ("120".toList) = 120 := by
  show ((120 : Nat) : ℚ) + ((0 : Nat) : ℚ) / (10 : ℚ) ^ (0 : Nat) = 120
  norm_num

/-- C6: the P/L extractor tries the ordered pattern list and takes the first
match's numeric value; when the match came from the loss pattern `Förlust:`
and the captured value is positive, the sign is forced negative.  In
particular `Förlust: $120` extracts -120, also through the full parser. -/
theorem c6_pnl_order_and_loss_sign :
    (∀ (t cap : List Char),
       pnlMatch .pnl t = none → pnlMatch .vinst t = none →
       pnlMatch .forlust t = some cap → 0 < parseDecimal cap →
       extractPnl t = some (-(parseDecimal cap))) ∧
    extractPnl ("Förlust: $120".toList) = some (-120) ∧
    (parseTradingMessage msgC6).map Trade.profit_loss = some (some (-120)) := by
  have key : ∀ (t cap : List Char),
      pnlMatch .pnl t = none → pnlMatch .vinst t = none →
      pnlMatch .forlust t = some cap → 0 < parseDecimal cap →
      extractPnl t = some (-(parseDecimal cap)) := by
    intro t cap h1 h2 h3 hpos
    simp [extractPnl, pnlPatterns, extractPnlGo, h1, h2, h3, sourceHasForlust,
      gt_iff_lt, hpos]
  have hforlust : extractPnl ("Förlust: $120".toList) = some (-120) := by
    have h := key ("Förlust: $120".toList) ("120".toList)
      (by decide) (by decide) (by decide)
      (by rw [parseDecimal_c120]; norm_num)
    rw [h, parseDecimal_c120]
  refine ⟨key, hforlust, ?_⟩
  have h0 : (parseTradingMessage msgC6).map Trade.profit_loss =
      some (extractPnl
        ("POSITION STÄNGD Symbol: BTC-USDT Utgångspris: $1.0 Förlust: $120".toList)) := by
    rfl
  have h := key
    ("POSITION STÄNGD Symbol: BTC-USDT Utgångspris: $1.0 Förlust: $120".toList)
    ("120".toList) (by decide) (by decide) (by decide)
    (by rw [parseDecimal_c120]; norm_num)
  rw [h0, h, parseDecimal_c120]

/-- C6 witness: the general conjunct applied at the concrete loss text. -/
theorem c6_witness :
    extractPnl ("Förlust: $120".toList) = some (-(parseDecimal ("120".toList))) :=
  c6_pnl_order_and_loss_sign.1 ("Förlust: $120".toList) ("120".toList)
    (by decide) (by decide) (by decide)
    (by rw [parseDecimal_c120]; norm_num)

/-! ## Shape of every successful parse (shared by C7 and C10) -/

theorem parseTradingMessage_fields (msg : TelegramMessage) (t : Trade)
    (h : parseTradingMessage msg = some t) :
    t.quantity = none ∧ t.symbol.isEmpty = false := by
  obtain ⟨mid, mtext, mdate, mchat⟩ := msg
  cases mtext with
  | none => exact Option.noConfusion h
  | some text =>
    unfold parseTradingMessage at h
    simp only [] at h
    cases hcl : isCloseMessage text with
    | false =>
      rw [hcl] at h
      simp at h
    | true =>
      rw [hcl] at h
      simp only [Bool.not_true, Bool.false_eq_true, if_false] at h
      cases hsy : ((extractSymbol text).getD []).isEmpty with
      | true =>
        rw [hsy] at h
        simp at h
      | false =>
        rw [hsy] at h
        simp only [Bool.false_eq_true, if_false] at h
        cases hep : extractExitPrice text with
        | none =>
          rw [hep] at h
          simp at h
        | some priceCap =>
          rw [hep] at h
          simp only [] at h
          injection h with h2
          subst h2
          exact ⟨rfl, hsy⟩

/-! ## C7: symbol shape -/

/-- The spec's format requirement on a stored symbol, modelled from the
spec's words ("normalized uppercase trading-pair token") for comparison with
the code: no lower-case ASCII letter occurs in it. -/
def isUppercaseToken (s : List Char) : Bool :=
  s.all (fun c => !('a' ≤ c && c ≤ 'z'))

/-- C7 (counterexample): a close message spelling the pair in lower case
parses to a record whose symbol is not an uppercase token — the parser
stores the capture verbatim, with no case normalization. -/
theorem c7_counterexample :
    (parseTradingMessage msgC7).map (fun t => isUppercaseToken t.symbol) =
      some false := by
  decide

/-- C7 (amended): every successful parse has a non-empty symbol (the code
skips a message whose symbol capture is empty), but the symbol is the
verbatim capture, not uppercased: the lowercase "btc-usdt" message yields
the lowercase symbol "btc-usdt". -/
theorem c7_symbol_nonempty_verbatim :
    (∀ (msg : TelegramMessage) (t : Trade),
       parseTradingMessage msg = some t → t.symbol ≠ []) ∧
    (parseTradingMessage msgC7).map Trade.symbol = some ("btc-usdt".toList) := by
  constructor
  · intro msg t h hnil
    have h2 := (parseTradingMessage_fields msg t h).2
    rw [hnil] at h2
    simp at h2
  · decide

def c7Trade : Trade :=
  { symbol := "btc-usdt".toList
    action := "CLOSE"
    price := parseDecimal ("1.0".toList)
    quantity := none
    profit_loss := some (parseDecimal ("1.0".toList))
    timestamp := epochToIso 1700000000
    telegram_message_id := 9
    raw_message := "📉 POSITION STÄNGD Symbol: btc-usdt Utgångspris: $1.0".toList }

/-- C7 witness: the universal conjunct applied to the concrete parse. -/
theorem c7_witness : "btc-usdt".toList ≠ ([] : List Char) :=
  c7_symbol_nonempty_verbatim.1 msgC7 c7Trade rfl

/-! ## C10: quantity is never populated -/

/-- C10: the parser declares `quantity`, never assigns it, and returns it
untouched: every successful parse has `quantity = none`. -/
theorem c10_quantity_always_none :
    ∀ (msg : TelegramMessage) (t : Trade),
      parseTradingMessage msg = some t → t.quantity = none := by
  intro msg t h
  exact (parseTradingMessage_fields msg t h).1

def c10Msg : TelegramMessage :=
  { message_id := 3
    text := some ("PnL: Symbol: BTC-USDT Utgångspris: $5".toList)
    date := 0
    chat := none }

def c10Trade : Trade :=
  { symbol := "BTC-USDT".toList
    action := "CLOSE"
    price := parseDecimal ("5".toList)
    quantity := none
    profit_loss := none
    timestamp := epochToIso 0
    telegram_message_id := 3
    raw_message := "PnL: Symbol: BTC-USDT Utgångspris: $5".toList }

/-- C10 witness: a concrete successful parse, with `quantity` absent. -/
theorem c10_witness :
    parseTradingMessage c10Msg = some c10Trade ∧ c10Trade.quantity = none :=
  ⟨rfl, c10_quantity_always_none c10Msg c10Trade rfl⟩

/-! ## C4: mode and cursor selection -/

/-- C4 (amended): with zero stored records for the caller the run selects
historical/backfill mode (no offset is used); with at least one record and a
non-zero maximal stored `telegram_message_id` m, incremental mode fetches
with offset m + 1.  (For m = 0 the JS truthiness test drops the offset —
see the counterexample.) -/
theorem c4_mode_and_cursor :
    (∀ (uid : Nat) (rows : List StoredTrade),
       existingTradesCount uid rows = 0 →
       shouldFetchHistorical uid rows = true) ∧
    (∀ (uid : Nat) (rows : List StoredTrade) (m : Int),
       existingTradesCount uid rows ≠ 0 →
       maxMsgId uid rows = some m → m ≠ 0 →
       shouldFetchHistorical uid rows = false ∧
       offsetFor uid rows = some (m + 1)) := by
  constructor
  · intro uid rows h
    simp [shouldFetchHistorical, h]
  · intro uid rows m h hm hm0
    refine ⟨?_, ?_⟩
    · simp [shouldFetchHistorical]
      exact h
    · simp [offsetFor, hm, hm0]

def tradeId0 : Trade :=
  { symbol := ['X'], action := "CLOSE", price := 0, quantity := none,
    profit_loss := none, timestamp := [], telegram_message_id := 0,
    raw_message := [] }

def c4RowsZero : List StoredTrade := [{ trade := tradeId0, user_id := some 1 }]

/-- C4 (counterexample): a caller with exactly one stored record whose
`telegram_message_id` is 0 does not get cursor 0 + 1 = 1 — the code's
truthiness test `latestTrade?.telegram_message_id ? id + 1 : undefined`
treats the id 0 as falsy and fetches without offset. -/
theorem c4_counterexample :
    existingTradesCount 1 c4RowsZero = 1 ∧
    maxMsgId 1 c4RowsZero = some 0 ∧
    offsetFor 1 c4RowsZero = none ∧
    offsetFor 1 c4RowsZero ≠ some 1 := by
  refine ⟨rfl, rfl, rfl, ?_⟩
  decide

def tradeId42 : Trade :=
  { symbol := ['X'], action := "CLOSE", price := 0, quantity := none,
    profit_loss := none, timestamp := [], telegram_message_id := 42,
    raw_message := [] }

def c4Rows42 : List StoredTrade := [{ trade := tradeId42, user_id := some 1 }]

/-- C4 witness: a single stored record with id 42 yields cursor 43. -/
theorem c4_witness :
    shouldFetchHistorical 1 c4Rows42 = false ∧
    offsetFor 1 c4Rows42 = some 43 :=
  c4_mode_and_cursor.2 1 c4Rows42 42 (by decide) (by decide) (by decide)

/-! ## C2: the response contract -/

/-- C2 (code bug): a run with a valid caller identity, full credentials and
an ok upstream response still returns the 500 failure response — the
duplicated `if (!data.ok)` check after the mode branches reads the
block-scoped `data` binding that is not in scope there, so every non-preflight
run that gets past the per-branch checks throws a ReferenceError before the
dedup/upsert/success code and lands in the catch handler. -/
theorem c2_success_path_unreachable :
    ∀ (cfg : RunConfig) (src : Source) (inp : RunInput)
      (rows : List StoredTrade) (uid : Nat) (chatId : Int),
      inp.preflight = false →
      inp.authHeaderPresent = true →
      inp.user = some uid →
      cfg.botTokenPresent = true →
      cfg.chatId = some chatId →
      src.ok = true →
      (handleRequest cfg src inp rows).1 =
        { status := 500, body := some (.err .referenceErrorData) } := by
  intro cfg src inp rows uid chatId hp ha hu hb hc hok
  simp [handleRequest, hp, ha, hu, hb, hc, hok]

def c2Cfg : RunConfig := { botTokenPresent := true, chatId := some 99 }

def c2Src : Source := { ok := true, window := fun _ => [] }

def c2Inp : RunInput := { preflight := false, authHeaderPresent := true, user := some 1 }

/-- C2 witness: the fully successful concrete run still gets the 500. -/
theorem c2_witness :
    (handleRequest c2Cfg c2Src c2Inp []).1 =
      { status := 500, body := some (.err .referenceErrorData) } :=
  c2_success_path_unreachable c2Cfg c2Src c2Inp [] 1 99 rfl rfl rfl rfl rfl rfl

/-! ## C3: idempotence of back-to-back runs -/

def c3Msg : TelegramMessage :=
  { message_id := 10
    text := some ("📉 POSITION STÄNGD Symbol: BTC-USDT Utgångspris: $0.673000 PnL: $-0.0117".toList)
    date := 1700000000
    chat := some { id := 99 } }

def c3Src : Source := { ok := true, window := fun _ => [{ message := some c3Msg }] }

/-- C3 (code bug): running the handler twice against the same fixed source
window never produces a `tradesFound = 0` summary — both runs throw the line
299 ReferenceError, return the 500 failure body, and persist no trades at
all (the store stays empty after both runs). -/
theorem c3_second_run_no_summary :
    (handleRequest c2Cfg c3Src c2Inp []).1 =
      { status := 500, body := some (.err .referenceErrorData) } ∧
    (handleRequest c2Cfg c3Src c2Inp ((handleRequest c2Cfg c3Src c2Inp []).2)).1 =
      { status := 500, body := some (.err .referenceErrorData) } ∧
    (handleRequest c2Cfg c3Src c2Inp ((handleRequest c2Cfg c3Src c2Inp []).2)).2 = [] :=
  ⟨rfl, rfl, rfl⟩

/-! ## C5: deduplication and upsert lemmas -/

theorem dedupKeep_cons_shift (t : Trade) (ts : List Trade) :
    ∀ (sub : List Trade) (i : Nat),
      dedupKeep (t :: ts) sub (i + 1) =
        (dedupKeep ts sub i).filter
          (fun u => !(u.telegram_message_id == t.telegram_message_id)) := by
  intro sub
  induction sub with
  | nil => intro i; rfl
  | cons u us ih =>
    intro i
    have hcond :
        (findIndexJs (fun v => v.telegram_message_id == u.telegram_message_id)
            (t :: ts) = some (i + 1)) ↔
        (¬ t.telegram_message_id = u.telegram_message_id ∧
          findIndexJs (fun v => v.telegram_message_id == u.telegram_message_id)
            ts = some i) := by
      rw [findIndexJs_cons]
      by_cases hut : t.telegram_message_id = u.telegram_message_id
      · simp [hut]
      · simp [hut, Option.map_eq_some']
    simp only [dedupKeep]
    by_cases hts : findIndexJs
        (fun v => v.telegram_message_id == u.telegram_message_id) ts = some i
    · by_cases hut : t.telegram_message_id = u.telegram_message_id
      · rw [if_neg (by rw [hcond]; tauto), if_pos hts, List.filter_cons]
        have hdrop : (!(u.telegram_message_id == t.telegram_message_id)) = false := by
          simp [hut.symm]
        rw [hdrop]
        simpa using ih (i + 1)
      · rw [if_pos (hcond.mpr ⟨hut, hts⟩), if_pos hts, List.filter_cons]
        have hkeep : (!(u.telegram_message_id == t.telegram_message_id)) = true := by
          simp
          exact fun hh => hut hh.symm
        rw [hkeep]
        simpa using congrArg (u :: ·) (ih (i + 1))
    · rw [if_neg (by rw [hcond]; tauto), if_neg hts]
      exact ih (i + 1)

theorem dedupTrades_cons (t : Trade) (ts : List Trade) :
    dedupTrades (t :: ts) =
      t :: (dedupTrades ts).filter
        (fun u => !(u.telegram_message_id == t.telegram_message_id)) := by
  show dedupKeep (t :: ts) (t :: ts) 0 = _
  simp only [dedupKeep]
  rw [if_pos (by rw [findIndexJs_cons]; simp)]
  exact congrArg (t :: ·) (dedupKeep_cons_shift t ts ts 0)

theorem dedupTrades_filter (k : Int) :
    ∀ (l : List Trade),
      (dedupTrades l).filter (fun u => u.telegram_message_id == k) =
        (l.filter (fun u => u.telegram_message_id == k)).take 1 := by
  intro l
  induction l with
  | nil => rfl
  | cons t ts ih =>
    rw [dedupTrades_cons]
    by_cases ht : t.telegram_message_id = k
    · have hk : (t.telegram_message_id == k) = true := by simp [ht]
      have hnil : ((dedupTrades ts).filter
          (fun u => !(u.telegram_message_id == t.telegram_message_id))).filter
            (fun u => u.telegram_message_id == k) = [] := by
        rw [List.filter_filter]
        apply List.filter_eq_nil_iff.mpr
        intro a _
        by_cases hak : a.telegram_message_id = k
        · simp [hak, ht.symm]
        · simp [hak]
      simp [List.filter_cons, hk, hnil]
    · have hk : (t.telegram_message_id == k) = false := by simp [ht]
      simp only [List.filter_cons, hk, Bool.false_eq_true, if_false]
      rw [List.filter_filter]
      have hcg : (dedupTrades ts).filter
          (fun a => (a.telegram_message_id == k) &&
            !(a.telegram_message_id == t.telegram_message_id)) =
          (dedupTrades ts).filter (fun a => a.telegram_message_id == k) := by
        apply List.filter_congr
        intro a _
        by_cases hak : a.telegram_message_id = k
        · have hknt : (k == t.telegram_message_id) = false := by
            simp
            exact fun hh => ht hh.symm
          simp [hak, hknt]
        · simp [hak]
      rw [hcg, ih]

theorem filter_take_one_first {α : Type} (p : α → Bool) :
    ∀ (l : List α), l.filter p ≠ [] →
      ∃ (i : Nat) (u : α), findIndexJs p l = some i ∧ l[i]? = some u ∧
        (l.filter p).take 1 = [u] := by
  intro l
  induction l with
  | nil => intro h; simp at h
  | cons a as ih =>
    intro h
    by_cases ha : p a
    · refine ⟨0, a, ?_, by simp, ?_⟩
      · rw [findIndexJs_cons, if_pos ha]
      · rw [List.filter_cons, if_pos (by simpa using ha)]
        rfl
    · have hstep : (a :: as).filter p = as.filter p := by
        rw [List.filter_cons, if_neg (by simpa using ha)]
      rw [hstep] at h
      obtain ⟨i, u, h1, h2, h3⟩ := ih h
      refine ⟨i + 1, u, ?_, by simpa using h2, by rwa [hstep]⟩
      rw [findIndexJs_cons, if_neg (by simpa using ha), h1]
      rfl

theorem upsertIgnore_cons (uid : Nat) (t : Trade) (ts : List Trade)
    (rows : List StoredTrade) :
    upsertIgnore uid (t :: ts) rows =
      upsertIgnore uid ts
        (if rows.any (fun r => r.trade.telegram_message_id == t.telegram_message_id)
         then rows
         else rows ++ [{ trade := t, user_id := some uid }]) := by
  rfl

theorem upsertIgnore_filter_of_no_id (uid : Nat) (k : Int) :
    ∀ (uniq : List Trade) (rows : List StoredTrade),
      uniq.countP (fun t => t.telegram_message_id == k) = 0 →
      (upsertIgnore uid uniq rows).filter
          (fun r => r.trade.telegram_message_id == k) =
        rows.filter (fun r => r.trade.telegram_message_id == k) := by
  intro uniq
  induction uniq with
  | nil => intro rows _; rfl
  | cons t ts ih =>
    intro rows h
    rw [List.countP_cons] at h
    have ht : (t.telegram_message_id == k) = false := by
      cases hh : (t.telegram_message_id == k) with
      | false => rfl
      | true => rw [hh] at h; simp at h
    have hts : ts.countP (fun t => t.telegram_message_id == k) = 0 := by
      rw [ht] at h; simpa using h
    rw [upsertIgnore_cons, ih _ hts]
    by_cases hany : rows.any
        (fun r => r.trade.telegram_message_id == t.telegram_message_id)
    · rw [if_pos hany]
    · rw [if_neg hany, List.filter_append]
      have : List.filter (fun r => r.trade.telegram_message_id == k)
          [({ trade := t, user_id := some uid } : StoredTrade)] = [] := by
        simp [List.filter, ht]
      rw [this, List.append_nil]

theorem upsertIgnore_fresh_insert (uid : Nat) (k : Int) :
    ∀ (uniq : List Trade) (rows : List StoredTrade) (u : Trade),
      uniq.filter (fun t => t.telegram_message_id == k) = [u] →
      rows.countP (fun r => r.trade.telegram_message_id == k) = 0 →
      (upsertIgnore uid uniq rows).filter
          (fun r => r.trade.telegram_message_id == k) =
        [{ trade := u, user_id := some uid }] := by
  intro uniq
  induction uniq with
  | nil => intro rows u h _; simp at h
  | cons t ts ih =>
    intro rows u h hrows
    have hrownil : rows.filter (fun r => r.trade.telegram_message_id == k) = [] := by
      rw [← List.length_eq_zero]
      rw [← List.countP_eq_length_filter]
      exact hrows
    by_cases htk : t.telegram_message_id = k
    · have htkb : (t.telegram_message_id == k) = true := by simp [htk]
      rw [List.filter_cons, if_pos (by simpa using htkb)] at h
      have htu : t = u := by
        injection h
      have htsnil : ts.filter (fun t => t.telegram_message_id == k) = [] := by
        injection h
      have htscount : ts.countP (fun t => t.telegram_message_id == k) = 0 := by
        rw [List.countP_eq_length_filter, htsnil]
        rfl
      have hany : rows.any
          (fun r => r.trade.telegram_message_id == t.telegram_message_id) = false := by
        rw [List.any_eq_false]
        intro r hr
        have := List.countP_eq_zero.mp hrows r hr
        simp only [htk]
        simpa using this
      have htub : (u.telegram_message_id == k) = true := by
        rw [← htu]; exact htkb
      rw [upsertIgnore_cons, if_neg (by simp [hany]),
        upsertIgnore_filter_of_no_id uid k ts _ htscount,
        List.filter_append, hrownil, List.nil_append, htu]
      simp [List.filter, htub]
    · have htkb : (t.telegram_message_id == k) = false := by simp [htk]
      rw [List.filter_cons, if_neg (by simp [htkb])] at h
      rw [upsertIgnore_cons]
      by_cases hany : rows.any
          (fun r => r.trade.telegram_message_id == t.telegram_message_id)
      · rw [if_pos hany]
        exact ih rows u h hrows
      · rw [if_neg hany]
        apply ih _ u h
        rw [List.countP_append]
        have : List.countP (fun r => r.trade.telegram_message_id == k)
            [({ trade := t, user_id := some uid } : StoredTrade)] = 0 := by
          simp [List.countP, List.countP.go, htkb]
        omega

theorem upsertIgnore_unique_ids (uid : Nat) :
    ∀ (uniq : List Trade) (rows : List StoredTrade),
      (∀ k : Int, rows.countP (fun r => r.trade.telegram_message_id == k) ≤ 1) →
      ∀ k : Int, (upsertIgnore uid uniq rows).countP
        (fun r => r.trade.telegram_message_id == k) ≤ 1 := by
  intro uniq
  induction uniq with
  | nil => intro rows h k; exact h k
  | cons t ts ih =>
    intro rows h k
    rw [upsertIgnore_cons]
    by_cases hany : rows.any
        (fun r => r.trade.telegram_message_id == t.telegram_message_id)
    · rw [if_pos hany]
      exact ih rows h k
    · rw [if_neg hany]
      apply ih
      intro k2
      rw [List.countP_append]
      by_cases hk2 : k2 = t.telegram_message_id
      · have hall : ∀ x ∈ rows,
            ¬ x.trade.telegram_message_id = t.telegram_message_id := by
          simpa using hany
        have h0 : rows.countP
            (fun r => r.trade.telegram_message_id == k2) = 0 := by
          rw [List.countP_eq_zero]
          intro r hr
          rw [hk2]
          simpa using hall r hr
        have h1 : List.countP (fun r => r.trade.telegram_message_id == k2)
            [({ trade := t, user_id := some uid } : StoredTrade)] ≤ 1 := by
          cases hb : (t.telegram_message_id == k2) <;>
            simp [List.countP, List.countP.go, hb]
        omega
      · have h1 : List.countP (fun r => r.trade.telegram_message_id == k2)
            [({ trade := t, user_id := some uid } : StoredTrade)] = 0 := by
          have : (t.telegram_message_id == k2) = false := by
            simp
            exact fun hh => hk2 hh.symm
          simp [List.countP, List.countP.go, this]
        have := h k2
        omega

/-- C5: in any parsed batch containing two entries with the same
`telegram_message_id`, the local dedup pass keeps exactly one entry with
that id, namely the one at the first index holding it; upserting the deduped
batch into a store with no row under that id persists exactly that record
(with the caller's user id); and the upsert-with-ignore preserves the
at-most-one-row-per-id storage invariant, never erroring on conflicts. -/
theorem c5_dedup_and_upsert :
    (∀ (b : List Trade) (i j : Nat) (t1 t2 : Trade),
       i < j → b[i]? = some t1 → b[j]? = some t2 →
       t1.telegram_message_id = t2.telegram_message_id →
       ((dedupTrades b).countP
           (fun u => u.telegram_message_id == t1.telegram_message_id) = 1 ∧
        ∃ (fi : Nat) (u : Trade),
          findIndexJs
            (fun u => u.telegram_message_id == t1.telegram_message_id) b
            = some fi ∧
          b[fi]? = some u ∧
          (dedupTrades b).filter
            (fun v => v.telegram_message_id == t1.telegram_message_id) = [u] ∧
          ∀ (uid : Nat) (rows : List StoredTrade),
            rows.countP (fun r => r.trade.telegram_message_id ==
              t1.telegram_message_id) = 0 →
            (upsertIgnore uid (dedupTrades b) rows).filter
              (fun r => r.trade.telegram_message_id ==
                t1.telegram_message_id) =
              [{ trade := u, user_id := some uid }])) ∧
    (∀ (uid : Nat) (uniq : List Trade) (rows : List StoredTrade),
       (∀ k : Int,
         rows.countP (fun r => r.trade.telegram_message_id == k) ≤ 1) →
       ∀ k : Int, (upsertIgnore uid uniq rows).countP
         (fun r => r.trade.telegram_message_id == k) ≤ 1) := by
  constructor
  · intro b i j t1 t2 hij hi hj hid
    have ht1mem : t1 ∈ b := mem_of_getElemOpt b i t1 hi
    have hfne : b.filter
        (fun u => u.telegram_message_id == t1.telegram_message_id) ≠ [] := by
      intro hnil
      have := List.filter_eq_nil_iff.mp hnil t1 ht1mem
      simp at this
    obtain ⟨fi, u, hfi, hu, htake⟩ := filter_take_one_first _ b hfne
    have hfilter : (dedupTrades b).filter
        (fun v => v.telegram_message_id == t1.telegram_message_id) = [u] := by
      rw [dedupTrades_filter]
      exact htake
    refine ⟨?_, fi, u, hfi, hu, hfilter, ?_⟩
    · rw [List.countP_eq_length_filter, hfilter]
      rfl
    · intro uid rows hrows
      exact upsertIgnore_fresh_insert uid t1.telegram_message_id
        (dedupTrades b) rows u hfilter hrows
  · intro uid uniq rows h
    exact upsertIgnore_unique_ids uid uniq rows h

def c5tA : Trade :=
  { symbol := ['A'], action := "CLOSE", price := 1, quantity := none,
    profit_loss := none, timestamp := [], telegram_message_id := 5,
    raw_message := [] }

def c5tB : Trade :=
  { symbol := ['B'], action := "CLOSE", price := 2, quantity := none,
    profit_loss := none, timestamp := [], telegram_message_id := 5,
    raw_message := [] }

/-- C5 witness: the theorem applied to a concrete two-element batch sharing
one message id, and to a concrete upsert into an empty store. -/
theorem c5_witness :
    ((dedupTrades [c5tA, c5tB]).countP
        (fun u => u.telegram_message_id == c5tA.telegram_message_id) = 1 ∧
      ∃ (fi : Nat) (u : Trade),
        findIndexJs
          (fun u => u.telegram_message_id == c5tA.telegram_message_id)
          [c5tA, c5tB] = some fi ∧
        ([c5tA, c5tB])[fi]? = some u ∧
        (dedupTrades [c5tA, c5tB]).filter
          (fun v => v.telegram_message_id == c5tA.telegram_message_id) = [u] ∧
        ∀ (uid : Nat) (rows : List StoredTrade),
          rows.countP (fun r => r.trade.telegram_message_id ==
            c5tA.telegram_message_id) = 0 →
          (upsertIgnore uid (dedupTrades [c5tA, c5tB]) rows).filter
            (fun r => r.trade.telegram_message_id ==
              c5tA.telegram_message_id) =
            [{ trade := u, user_id := some uid }]) ∧
    (∀ k : Int, (upsertIgnore 1 [c5tA] []).countP
        (fun r => r.trade.telegram_message_id == k) ≤ 1) :=
  ⟨c5_dedup_and_upsert.1 [c5tA, c5tB] 0 1 c5tA c5tB (by decide)
      (by simp) (by simp) rfl,
   c5_dedup_and_upsert.2 1 [c5tA] [] (fun k => by simp)⟩

/-! ## C8: the orphan-adoption pass -/

/-- C8: the adoption pass preserves the number of rows and every row's
position; it changes only the `user_id` of rows where it is absent (setting
it to the caller), leaves every owned row entirely unchanged, and running
the pass again — by any caller — changes nothing. -/
theorem c8_adopt_orphans_frame :
    ∀ (uid : Nat) (rows : List StoredTrade),
      (adoptOrphans uid rows).length = rows.length ∧
      (∀ (i : Nat) (r : StoredTrade), rows[i]? = some r →
        (adoptOrphans uid rows)[i]? =
          some { trade := r.trade,
                 user_id := if r.user_id = none then some uid
                            else r.user_id }) ∧
      (∀ uid2 : Nat,
        adoptOrphans uid2 (adoptOrphans uid rows) = adoptOrphans uid rows) := by
  intro uid rows
  by_cases hor : (rows.filter (fun r => r.user_id = none)).length > 0
  · have hdef : adoptOrphans uid rows =
        rows.map (fun r => if r.user_id = none
          then { r with user_id := some uid } else r) := by
      simp only [adoptOrphans, if_pos hor]
    refine ⟨by rw [hdef, List.length_map], ?_, ?_⟩
    · intro i r hr
      rw [hdef, List.getElem?_map, hr]
      by_cases hn : r.user_id = none
      · simp [hn]
      · simp [hn]
    · intro uid2
      have hnone : ((adoptOrphans uid rows).filter
          (fun r => r.user_id = none)).length = 0 := by
        rw [hdef]
        rw [List.length_eq_zero]
        rw [List.filter_eq_nil_iff]
        intro x hx
        obtain ⟨r, _, hfr⟩ := List.mem_map.mp hx
        by_cases hn : r.user_id = none
        · rw [← hfr]
          simp [hn]
        · rw [← hfr]
          simp [hn]
      have hstep : adoptOrphans uid2 (adoptOrphans uid rows) =
          if ((adoptOrphans uid rows).filter
              (fun r => r.user_id = none)).length > 0
          then (adoptOrphans uid rows).map
            (fun r => if r.user_id = none
              then { r with user_id := some uid2 } else r)
          else adoptOrphans uid rows := rfl
      rw [hstep, if_neg (by omega)]
  · have hdef : adoptOrphans uid rows = rows := by
      simp only [adoptOrphans, if_neg hor]
    have hall : ∀ r ∈ rows, ¬ r.user_id = none := by
      have h0 : (rows.filter (fun r => r.user_id = none)) = [] := by
        rw [← List.length_eq_zero]
        omega
      intro r hr
      have := List.filter_eq_nil_iff.mp h0 r hr
      simpa using this
    refine ⟨by rw [hdef], ?_, ?_⟩
    · intro i r hr
      have hro : ¬ r.user_id = none :=
        hall r (mem_of_getElemOpt rows i r hr)
      rw [hdef, hr, if_neg hro]
    · intro uid2
      rw [hdef]
      simp only [adoptOrphans, if_neg hor]

def c8Orphan : StoredTrade := { trade := tradeId42, user_id := none }

/-- C8 witness: the frame theorem applied to a store with one orphan row. -/
theorem c8_witness :
    (adoptOrphans 7 [c8Orphan]).length = 1 ∧
    (adoptOrphans 7 [c8Orphan])[0]? =
      some { trade := c8Orphan.trade, user_id := some 7 } ∧
    adoptOrphans 8 (adoptOrphans 7 [c8Orphan]) = adoptOrphans 7 [c8Orphan] := by
  obtain ⟨h1, h2, h3⟩ := c8_adopt_orphans_frame 7 [c8Orphan]
  refine ⟨h1, ?_, h3 8⟩
  simpa using h2 0 c8Orphan (by simp)

/-! ## C9: the chat filter -/

theorem parseUpdates_eq_filter (chatId : Int) :
    ∀ (us : List TelegramUpdate),
      parseUpdates chatId us =
        parseUpdates chatId (us.filter (relevantUpdate chatId)) := by
  intro us
  induction us with
  | nil => rfl
  | cons u us ih =>
    cases hm : u.message with
    | none =>
      have hrel : relevantUpdate chatId u = false := by
        simp [relevantUpdate, hm]
      rw [List.filter_cons, if_neg (by simp [hrel])]
      simp only [parseUpdates, hm]
      exact ih
    | some m =>
      cases hc : m.chat with
      | none =>
        have hrel : relevantUpdate chatId u = false := by
          simp [relevantUpdate, hm, hc]
        rw [List.filter_cons, if_neg (by simp [hrel])]
        simp only [parseUpdates, hm, hc]
        exact ih
      | some c =>
        by_cases hid : c.id = chatId
        · have hrel : relevantUpdate chatId u = true := by
            simp [relevantUpdate, hm, hc, hid]
          rw [List.filter_cons, if_pos (by simp [hrel])]
          simp only [parseUpdates, hm, hc]
          have hidb : (c.id == chatId) = true := by simp [hid]
          rw [hidb]
          cases hp : parseTradingMessage m <;> simp [hp, ih]
        · have hrel : relevantUpdate chatId u = false := by
            simp [relevantUpdate, hm, hc, hid]
          rw [List.filter_cons, if_neg (by simp [hrel])]
          simp only [parseUpdates, hm, hc]
          have hidb : (c.id == chatId) = false := by simp [hid]
          rw [hidb]
          simpa using ih

/-- C9: a fetched update contributes a trade only if it carries a `message`
whose `chat.id` equals the configured chat id: the parse loop's result on a
batch equals its result on the batch restricted to such updates, so two
batches differing only in message-less or wrong-chat updates parse — and
hence dedupe and persist — identically. -/
theorem c9_chat_filter :
    (∀ (chatId : Int) (b : List TelegramUpdate),
       parseUpdates chatId b =
         parseUpdates chatId (b.filter (relevantUpdate chatId))) ∧
    (∀ (chatId : Int) (b1 b2 : List TelegramUpdate),
       b1.filter (relevantUpdate chatId) = b2.filter (relevantUpdate chatId) →
       parseUpdates chatId b1 = parseUpdates chatId b2 ∧
       ∀ (uid : Nat) (rows : List StoredTrade),
         upsertIgnore uid (dedupTrades (parseUpdates chatId b1)) rows =
           upsertIgnore uid (dedupTrades (parseUpdates chatId b2)) rows) := by
  refine ⟨fun chatId => parseUpdates_eq_filter chatId, ?_⟩
  intro chatId b1 b2 h
  have he : parseUpdates chatId b1 = parseUpdates chatId b2 := by
    rw [parseUpdates_eq_filter chatId b1, parseUpdates_eq_filter chatId b2, h]
  exact ⟨he, fun uid rows => by rw [he]⟩

def c9Good : TelegramUpdate := { message := some c3Msg }

def c9NoMsg : TelegramUpdate := { message := none }

def c9WrongChat : TelegramUpdate :=
  { message := some { message_id := 11, text := none, date := 0,
                      chat := some { id := 42 } } }

/-- C9 witness: dropping a message-less update and a wrong-chat update from
a batch leaves the parse result and the persisted store unchanged. -/
theorem c9_witness :
    parseUpdates 99 [c9NoMsg, c9WrongChat, c9Good] = parseUpdates 99 [c9Good] ∧
    ∀ (uid : Nat) (rows : List StoredTrade),
      upsertIgnore uid
          (dedupTrades (parseUpdates 99 [c9NoMsg, c9WrongChat, c9Good])) rows =
        upsertIgnore uid (dedupTrades (parseUpdates 99 [c9Good])) rows :=
  c9_chat_filter.2 99 [c9NoMsg, c9WrongChat, c9Good] [c9Good] (by decide)
